import Mathlib

/-!
# Sword-magic combat core: a shallow embedding

A shallow embedding of the combat-relevant parts of `src/main.py`
(identical in the `src/sol/sword_magic/main.py` variant for the functions
embedded here).  Conventions:

* Python `int` values are modelled as `ℤ` (or `ℕ` where the source only
  ever sees naturals, e.g. levels).
* Python `float` values are modelled as `ℚ`, with float literals read as
  exact rationals (0.75 and 0.5 are exactly representable as doubles;
  for 1.2 and 0.3 the rational is the intended value and `int(x * 1.2)`
  agrees with `⌊x * 6/5⌋` throughout the value ranges the game uses).
* Python `int(q)` truncates toward zero; `pyInt` below reproduces that.
* `pygame.Rect.colliderect` on positively-sized rectangles is the strict
  overlap test; `Rect.collide` below reproduces it.
* `math.hypot (ex-cx) (ey-cy) ≤ r` is expressed square-free as
  `0 ≤ r ∧ (ex-cx)^2 + (ey-cy)^2 ≤ r^2`, which is equivalent over ℝ/ℚ.
-/

namespace SwordMagic

/-- Python `int(q)`: truncation toward zero. -/
def pyInt (q : ℚ) : ℤ := if q < 0 then ⌈q⌉ else ⌊q⌋

/-- `SWORD_RANGE = 50` (main.py line 43). -/
def SWORD_RANGE : ℚ := 50

/-- `BASE_SWORD_RANGE = SWORD_RANGE` (main.py line 104). -/
def BASE_SWORD_RANGE : ℚ := SWORD_RANGE

/-- `INVULN_TIME = 0.6` (main.py line 46). -/
def INVULN_TIME : ℚ := 3/5

/-- An integer axis-aligned rectangle, as produced by `pygame.Rect`. -/
structure Rect where
  x : ℤ
  y : ℤ
  w : ℤ
  h : ℤ
  deriving Repr, DecidableEq

/-- `pygame.Rect.colliderect`: strict-overlap test (exact for the
positively sized rectangles this game builds). -/
def Rect.collide (a b : Rect) : Bool :=
  decide (a.x < b.x + b.w) && decide (b.x < a.x + a.w) &&
  decide (a.y < b.y + b.h) && decide (b.y < a.y + a.h)

/-- `pygame.Rect.collidepoint (px, py)`: left/top edges inclusive,
right/bottom exclusive. -/
def Rect.collidepoint (r : Rect) (px py : ℤ) : Bool :=
  decide (r.x ≤ px) && decide (px < r.x + r.w) &&
  decide (r.y ≤ py) && decide (py < r.y + r.h)

/-- One entry of the `WEAPONS` table: `range` bonus, `dmg` flat bonus,
damage multiplier `mult` (main.py lines 85-93). -/
structure Weapon where
  range : ℚ
  dmg : ℚ
  mult : ℚ
  deriving Repr, DecidableEq

def starterWeapon : Weapon := ⟨0, 0, 1⟩
def woodSword : Weapon := ⟨5, 0, 1⟩
def twinDaggers : Weapon := ⟨-2, 0, 2⟩
def longSword : Weapon := ⟨10, 3, 3/2⟩
def warAxe : Weapon := ⟨5, 19/2, 13/10⟩
def warHammer : Weapon := ⟨5, 73/10, 3/2⟩
def godSword : Weapon := ⟨30, 50, 5⟩

/-- The fixed weapon catalog (`WEAPONS`, main.py lines 85-93); `get_weapon`
always resolves into this catalog (falling back to `starter`). -/
def WEAPONS : List Weapon :=
  [starterWeapon, woodSword, twinDaggers, longSword, warAxe, warHammer, godSword]

/-- The boss names the death handler treats specially. -/
def demonKingName : String := "Zasu (Demon King)"

/-- `SECRET_BOSS = ("Shyssa (Demon Queen)", ...)` (main.py line 437). -/
def secretBossName : String := "Shyssa (Demon Queen)"

/-- The combat-relevant fields of the `Enemy` dataclass (main.py lines
164-337), including the `data` bag entries consulted by the death handler
(`must_die_by_sword`, `last_hit_by_sword`, `summon_thresholds`; absent keys
read as `False` via `dict.get`, so they are plain fields with `false` /
`[]` defaults here). -/
structure Enemy where
  x : ℚ
  y : ℚ
  w : ℤ
  h : ℤ
  hp : ℤ
  max_hp : ℤ
  invuln_timer : ℚ
  name : String
  speed : ℚ
  damage : ℤ
  revived_once : Bool := false
  must_die_by_sword : Bool := false
  last_hit_by_sword : Bool := false
  summon_thresholds : List (ℚ × Bool) := []
  on_hit_effect : Option String := none
  on_hit_effect_value : ℚ := 0
  on_hit_effect_duration : ℚ := 0
  deriving Repr, DecidableEq

/-- `Entity.rect` (main.py line 177): `pygame.Rect(int(x), int(y), w, h)`. -/
def Enemy.rect (e : Enemy) : Rect := ⟨pyInt e.x, pyInt e.y, e.w, e.h⟩

/-- The combat-relevant fields of the `Player` dataclass (main.py lines
205-222). -/
structure Player where
  x : ℚ
  y : ℚ
  w : ℤ
  h : ℤ
  hp : ℤ
  invuln_timer : ℚ
  atk : ℤ
  armor_hits_remaining : ℤ
  bleed_time_left : ℚ := 0
  bleed_tick_accum : ℚ := 0
  bleed_dps : ℚ := 0
  no_heal_time_left : ℚ := 0
  deriving Repr, DecidableEq

def Player.rect (p : Player) : Rect := ⟨pyInt p.x, pyInt p.y, p.w, p.h⟩

/-- `Player.center` (main.py line 224). -/
def Player.centerX (p : Player) : ℚ := p.x + p.w / 2
def Player.centerY (p : Player) : ℚ := p.y + p.h / 2

def Enemy.centerX (e : Enemy) : ℚ := e.x + e.w / 2
def Enemy.centerY (e : Enemy) : ℚ := e.y + e.h / 2

/-- The melee damage computed in `Player.sword_attack` (main.py lines
266-267): `int(max(1, atk + wpn.dmg) * wpn.mult)`. -/
def meleeDamage (atk : ℤ) (wpn : Weapon) : ℤ :=
  pyInt (max 1 ((atk : ℚ) + wpn.dmg) * wpn.mult)

/-- The melee hit test of `sword_attack` (main.py line 272):
`math.hypot (ex - cx) (ey - cy) ≤ melee_range`, written square-free. -/
def inMeleeRange (cx cy ex ey mrange : ℚ) : Bool :=
  decide (0 ≤ mrange) && decide ((ex - cx)^2 + (ey - cy)^2 ≤ mrange^2)

/-- The body of the enemy loop of `Player.sword_attack` (main.py lines
269-280): a living enemy whose center is within
`BASE_SWORD_RANGE + wpn.range` of the attacker center loses `meleeDamage`
hp (no clamping), gets `invuln_timer = INVULN_TIME`, and has its
`last_hit_by_sword` flag set true. -/
def swordHitEnemy (p : Player) (wpn : Weapon) (e : Enemy) : Enemy :=
  if e.hp ≤ 0 then e
  else if inMeleeRange p.centerX p.centerY e.centerX e.centerY
        (BASE_SWORD_RANGE + wpn.range) then
    { e with hp := e.hp - meleeDamage p.atk wpn,
             invuln_timer := INVULN_TIME,
             last_hit_by_sword := true }
  else e

/-- `Player.sword_attack` over the enemy list (main.py lines 261-281);
the boolean hit feedback is not modelled. -/
def sword_attack (p : Player) (wpn : Weapon) (enemies : List Enemy) : List Enemy :=
  enemies.map (swordHitEnemy p wpn)

/-- `get_exp_needed_for_level` (main.py lines 1319-1324, identical at
sol variant lines 810-815): `20 * 2 ** (level // 5)`. -/
def get_exp_needed_for_level (level : ℕ) : ℕ :=
  20 * 2 ^ (level / 5)

/-- The bleed merge used on the player (main.py lines 1230-1232 and
1267-1269): duration and dps are raised to the max of current and
incoming. -/
def applyBleed (p : Player) (value duration : ℚ) : Player :=
  { p with bleed_time_left := max p.bleed_time_left duration,
           bleed_dps := max p.bleed_dps value }

/-- The suppress-heal merge used on the player (main.py lines 1233-1234
and 1270-1271). -/
def applyNoHeal (p : Player) (duration : ℚ) : Player :=
  { p with no_heal_time_left := max p.no_heal_time_left duration }

/-- `entity_hit_player` (main.py lines 1217-1234): contact damage with
armor absorption, invulnerability, and on-hit effect merge. -/
def entity_hit_player (e : Enemy) (p : Player) : Player :=
  if e.hp ≤ 0 then p
  else if 0 < p.invuln_timer then p
  else if e.rect.collide p.rect then
    let p1 :=
      if 0 < p.armor_hits_remaining then
        { p with armor_hits_remaining := p.armor_hits_remaining - 1 }
      else
        { p with hp := p.hp - e.damage }
    let p2 := { p1 with invuln_timer := INVULN_TIME }
    let p3 :=
      if e.on_hit_effect = some "bleed" then
        applyBleed p2 e.on_hit_effect_value e.on_hit_effect_duration
      else p2
    if e.on_hit_effect = some "no_heal" then
      applyNoHeal p3 e.on_hit_effect_duration
    else p3
  else p

/-- The combat-relevant fields of the `Projectile` dataclass (main.py
lines 180-200). -/
structure Projectile where
  x : ℚ
  y : ℚ
  damage : ℤ
  from_player : Bool
  effect : Option String := none
  effect_value : ℚ := 0
  effect_duration : ℚ := 0
  deriving Repr, DecidableEq

/-- The per-enemy body of the player-owned branch of `projectile_hits`
(main.py lines 1248-1258): a point hit deals unclamped damage, sets the
invulnerability constant and clears `last_hit_by_sword` (ranged hits do
not count as sword hits). -/
def projHitEnemy (pr : Projectile) (e : Enemy) : Enemy :=
  if e.hp ≤ 0 then e
  else if e.rect.collidepoint (pyInt pr.x) (pyInt pr.y) then
    { e with hp := e.hp - pr.damage,
             invuln_timer := INVULN_TIME,
             last_hit_by_sword := false }
  else e

/-- The enemy-owned branch of `projectile_hits` (main.py lines 1262-1271):
hit on a non-invulnerable player deals unclamped damage, sets
invulnerability, and max-merges the effect payload. -/
def projHitPlayer (pr : Projectile) (p : Player) : Player :=
  if pr.from_player then p
  else if p.rect.collidepoint (pyInt pr.x) (pyInt pr.y) && decide (p.invuln_timer ≤ 0) then
    let p1 := { p with hp := p.hp - pr.damage, invuln_timer := INVULN_TIME }
    if pr.effect = some "bleed" then
      applyBleed p1 pr.effect_value pr.effect_duration
    else if pr.effect = some "no_heal" then
      applyNoHeal p1 pr.effect_duration
    else p1
  else p

/-- The player invulnerability-timer decrement (main.py line 2593):
`invuln_timer = max(0, invuln_timer - dt)`. -/
def tickInvuln (t dt : ℚ) : ℚ := max 0 (t - dt)

/-- One bleed chunk's damage (main.py line 2601):
`int(max(1.0, bleed_dps * 0.5))`. -/
def bleedChunk (dps : ℚ) : ℤ := pyInt (max 1 (dps * (1/2)))

/-- The bleed tick while-loop (main.py lines 2598-2601): while the
accumulator holds at least half a second and hp is positive, spend half a
second and apply one clamped chunk of damage.  Returns (hp, accumulator). -/
def bleedLoop (hp : ℤ) (accum dps : ℚ) : ℤ × ℚ :=
  if h : 1/2 ≤ accum ∧ 0 < hp then
    bleedLoop (max 0 (hp - bleedChunk dps)) (accum - 1/2) dps
  else (hp, accum)
termination_by (⌈accum * 2⌉).toNat
decreasing_by
  have h1 : (1 : ℚ) ≤ accum * 2 := by linarith [h.1]
  have h2 : ((1 : ℤ) : ℚ) ≤ (⌈accum * 2⌉ : ℚ) :=
    le_trans (by exact_mod_cast h1) (Int.le_ceil _)
  have h3 : (1 : ℤ) ≤ ⌈accum * 2⌉ := by exact_mod_cast h2
  have h4 : (accum - 1/2) * 2 = accum * 2 - 1 := by ring
  have h5 : ⌈(accum - 1/2) * 2⌉ = ⌈accum * 2⌉ - 1 := by rw [h4, Int.ceil_sub_one]
  omega

/-- `collides_rect` (main.py lines 477-481): does the rectangle overlap
any obstacle?  Obstacles enter as their collision rectangles
(`Obstacle.rect`; the `kind` tag is visual only). -/
def collides_rect (r : Rect) (obstacles : List Rect) : Bool :=
  obstacles.any fun ob => r.collide ob

/-- `resolve_entity_collision` (main.py lines 483-500): axis-separated
sliding resolution, X before Y, full revert if both axes blocked.  Takes
the entity's moved position, velocity, size and previous position;
returns the resolved position. -/
def resolve_entity_collision (obstacles : List Rect)
    (x y vx vy prevX prevY : ℚ) (w h : ℤ) : ℚ × ℚ :=
  if !collides_rect ⟨pyInt x, pyInt y, w, h⟩ obstacles then (x, y)
  else if !collides_rect ⟨pyInt (prevX + vx), pyInt prevY, w, h⟩ obstacles then
    (prevX + vx, prevY)
  else if !collides_rect ⟨pyInt prevX, pyInt (prevY + vy), w, h⟩ obstacles then
    (prevX, prevY + vy)
  else (prevX, prevY)

/-- The summon-threshold pass of the per-enemy behavior step (main.py
lines 2708-2714): each threshold entry `(frac, done)` with `done = false`
and `hp ≤ max_hp * frac` is marked fired and spawns `count = 3` minions.
Returns the updated threshold list and the number of minions spawned. -/
def summonStep (maxHp hp : ℤ) : List (ℚ × Bool) → List (ℚ × Bool) × ℕ
  | [] => ([], 0)
  | (frac, done) :: rest =>
    let r := summonStep maxHp hp rest
    if !done && decide ((hp : ℚ) ≤ (maxHp : ℚ) * frac) then
      ((frac, true) :: r.1, r.2 + 3)
    else
      ((frac, done) :: r.1, r.2)

/-- The revive-once transform (main.py lines 2732-2737): mark revived,
restore hp to `int(max_hp * 0.75)`, damage to `int(damage * 1.2)`, speed
increased by the fixed increment 0.3. -/
def reviveTransform (e : Enemy) : Enemy :=
  { e with revived_once := true,
           hp := pyInt ((e.max_hp : ℚ) * (3/4)),
           damage := pyInt ((e.damage : ℚ) * (6/5)),
           speed := e.speed + 3/10 }

/-- The per-enemy outcome of the death-handling branch (main.py lines
2729-2746): `some` keeps the enemy in the survivor list (alive, revived,
or sword-gated at 1 hp), `none` removes it. -/
def deathResolve (e : Enemy) : Option Enemy :=
  if 0 < e.hp then some e
  else if e.name = demonKingName && !e.revived_once then
    some (reviveTransform e)
  else if e.name = secretBossName && e.must_die_by_sword && !e.last_hit_by_sword then
    some { e with hp := 1 }
  else none

/-- The survivors commit of the main loop (main.py lines 2727-2776): each
enemy of the frame's list is kept (possibly transformed by revive-once or
the sword gate) or removed; one reward drop / death record is produced per
removed enemy.  Returns (survivor list, removed-enemy list). -/
def commitEnemies : List Enemy → List Enemy × List Enemy
  | [] => ([], [])
  | e :: rest =>
    let r := commitEnemies rest
    match deathResolve e with
    | some e1 => (e1 :: r.1, r.2)
    | none => (r.1, e :: r.2)

/-! ## Helper lemmas -/

theorem pyInt_eq_floor (q : ℚ) (h : 0 ≤ q) : pyInt q = ⌊q⌋ := by
  unfold pyInt
  rw [if_neg (not_lt.mpr h)]

/-- Sample player: atk 8, long sword equipped, standing at the origin. -/
def samplePlayer : Player :=
  { x := 0, y := 0, w := 30, h := 30, hp := 100, invuln_timer := 0,
    atk := 8, armor_hits_remaining := 0 }

/-- Sample enemy colocated with `samplePlayer` (hence in melee range). -/
def sampleEnemy : Enemy :=
  { x := 0, y := 0, w := 30, h := 30, hp := 40, max_hp := 40,
    invuln_timer := 0, name := "Imp", speed := 2, damage := 5 }

/-! ## C10: experience curve -/

/-- C10: for every level the experience required for the next level is
`20 * 2 ^ (level / 5)`, so the requirement doubles exactly when the level
crosses a multiple of 5: required(4)=20, required(5)=40, required(9)=40,
required(10)=80. -/
theorem exp_curve_doubles_every_five_levels :
    (∀ L : ℕ, get_exp_needed_for_level L = 20 * 2 ^ (L / 5)) ∧
    get_exp_needed_for_level 4 = 20 ∧
    get_exp_needed_for_level 5 = 40 ∧
    get_exp_needed_for_level 9 = 40 ∧
    get_exp_needed_for_level 10 = 80 ∧
    (∀ L : ℕ, get_exp_needed_for_level (L + 1) =
      if (L + 1) % 5 = 0 then 2 * get_exp_needed_for_level L
      else get_exp_needed_for_level L) := by
  refine ⟨fun L => rfl, rfl, rfl, rfl, rfl, fun L => ?_⟩
  by_cases h : (L + 1) % 5 = 0
  · have hd : 5 ∣ L + 1 := Nat.dvd_of_mod_eq_zero h
    rw [if_pos h]
    unfold get_exp_needed_for_level
    rw [Nat.succ_div, if_pos hd, pow_succ]
    ring
  · have hd : ¬ 5 ∣ L + 1 := by omega
    rw [if_neg h]
    unfold get_exp_needed_for_level
    rw [Nat.succ_div, if_neg hd, Nat.add_zero]

/-! ## C2: melee damage formula -/

/-- C2: for every catalog weapon and base attack value, a melee attack
deals to each living enemy whose center is within
`BASE_SWORD_RANGE + weapon.range` of the attacker center exactly
`⌊max 1 (atk + weapon.dmg) * weapon.mult⌋` damage; in particular base
attack 8 with flat bonus 3 and multiplier 1.5 (the long sword) deals 16. -/
theorem melee_damage_formula (p : Player) (wpn : Weapon) (e : Enemy)
    (hw : wpn ∈ WEAPONS) (hhp : 0 < e.hp)
    (hin : inMeleeRange p.centerX p.centerY e.centerX e.centerY
      (BASE_SWORD_RANGE + wpn.range) = true) :
    (swordHitEnemy p wpn e).hp =
      e.hp - ⌊max 1 ((p.atk : ℚ) + wpn.dmg) * wpn.mult⌋ ∧
    meleeDamage 8 longSword = 16 := by
  have hmult : 0 ≤ wpn.mult := by
    fin_cases hw <;> norm_num [starterWeapon, woodSword, twinDaggers,
      longSword, warAxe, warHammer, godSword]
  have hprod : 0 ≤ max 1 ((p.atk : ℚ) + wpn.dmg) * wpn.mult :=
    mul_nonneg (le_trans zero_le_one (le_max_left _ _)) hmult
  constructor
  · simp only [swordHitEnemy, if_neg (not_le.mpr hhp), hin, if_true]
    rw [meleeDamage, pyInt_eq_floor _ hprod]
  · norm_num [meleeDamage, longSword, pyInt, max_def]

/-! ## C1: hp clamping (corrected: combat decrements do not clamp) -/

/-- `sampleEnemy` at 1 hp, for the hp-clamping counterexample. -/
def oneHpEnemy : Enemy := { sampleEnemy with hp := 1 }

/-- C1 counterexample: a single melee sweep on a living in-range enemy
with 1 hp leaves its hp at `-15`, strictly negative — hp is not clamped
at 0 on that decrement. -/
theorem melee_leaves_negative_hp :
    (swordHitEnemy samplePlayer longSword oneHpEnemy).hp = -15 ∧
    (swordHitEnemy samplePlayer longSword oneHpEnemy).hp < 0 := by
  have h : (swordHitEnemy samplePlayer longSword oneHpEnemy).hp = -15 := by
    norm_num [swordHitEnemy, oneHpEnemy, sampleEnemy, samplePlayer,
      inMeleeRange, Player.centerX, Player.centerY, Enemy.centerX,
      Enemy.centerY, BASE_SWORD_RANGE, SWORD_RANGE, longSword,
      meleeDamage, pyInt, max_def]
  exact ⟨h, by rw [h]; norm_num⟩

/-- C1 amended: the bleed tick clamps the player's hp at 0 and the
invulnerability-timer decrement clamps at 0, but the melee-sweep,
player-projectile, enemy-projectile and contact-damage decrements are
unclamped subtractions, so hp can become negative there. -/
theorem hp_clamping_amended :
    (∀ (hp : ℤ) (accum dps : ℚ), 0 ≤ hp → 0 ≤ (bleedLoop hp accum dps).1) ∧
    (∀ t dt : ℚ, 0 ≤ tickInvuln t dt) ∧
    (∀ (p : Player) (wpn : Weapon) (e : Enemy), 0 < e.hp →
      inMeleeRange p.centerX p.centerY e.centerX e.centerY
        (BASE_SWORD_RANGE + wpn.range) = true →
      (swordHitEnemy p wpn e).hp = e.hp - meleeDamage p.atk wpn) ∧
    (∀ (pr : Projectile) (e : Enemy), 0 < e.hp →
      e.rect.collidepoint (pyInt pr.x) (pyInt pr.y) = true →
      (projHitEnemy pr e).hp = e.hp - pr.damage) ∧
    (∀ (pr : Projectile) (p : Player), pr.from_player = false →
      p.rect.collidepoint (pyInt pr.x) (pyInt pr.y) = true →
      p.invuln_timer ≤ 0 →
      (projHitPlayer pr p).hp = p.hp - pr.damage) ∧
    (∀ (e : Enemy) (p : Player), 0 < e.hp → p.invuln_timer ≤ 0 →
      e.rect.collide p.rect = true → p.armor_hits_remaining ≤ 0 →
      (entity_hit_player e p).hp = p.hp - e.damage) := by
  refine ⟨?_, ?_, ?_, ?_, ?_, ?_⟩
  · intro hp accum dps h
    induction hp, accum, dps using bleedLoop.induct with
    | case1 hp accum dps hcond ih =>
      rw [bleedLoop, dif_pos hcond]
      exact ih (le_max_left _ _)
    | case2 hp accum dps hcond =>
      rw [bleedLoop, dif_neg hcond]
      exact h
  · intro t dt
    exact le_max_left _ _
  · intro p wpn e hhp hin
    simp only [swordHitEnemy, if_neg (not_le.mpr hhp), hin, if_true]
  · intro pr e hhp hcp
    simp only [projHitEnemy, if_neg (not_le.mpr hhp), hcp, if_true]
  · intro pr p hfp hcp hinv
    have hb : (p.rect.collidepoint (pyInt pr.x) (pyInt pr.y) &&
        decide (p.invuln_timer ≤ 0)) = true := by
      rw [hcp, decide_eq_true hinv, Bool.and_self]
    simp only [projHitPlayer, hfp, Bool.false_eq_true, if_false, hb, if_true]
    split_ifs <;> simp [applyBleed, applyNoHeal]
  · intro e p hhp hinv hcol harm
    simp only [entity_hit_player, if_neg (not_le.mpr hhp),
      if_neg (not_lt.mpr hinv), hcol, if_true, if_neg (not_lt.mpr harm)]
    split_ifs <;> simp [applyBleed, applyNoHeal]

/-- C2 witness: the formula instantiated at `samplePlayer` (atk 8) with
the long sword against the colocated `sampleEnemy`. -/
theorem melee_damage_formula_witness :
    (swordHitEnemy samplePlayer longSword sampleEnemy).hp =
      sampleEnemy.hp - ⌊max 1 ((samplePlayer.atk : ℚ) + longSword.dmg) * longSword.mult⌋ ∧
    meleeDamage 8 longSword = 16 :=
  melee_damage_formula samplePlayer longSword sampleEnemy
    (by simp [WEAPONS])
    (by norm_num [sampleEnemy])
    (by norm_num [inMeleeRange, samplePlayer, sampleEnemy, Player.centerX,
      Player.centerY, Enemy.centerX, Enemy.centerY, BASE_SWORD_RANGE,
      SWORD_RANGE, longSword])

/-- C1 amended, witness: the bleed loop keeps a concrete nonnegative hp
nonnegative. -/
theorem hp_clamping_amended_witness :
    0 ≤ (bleedLoop 50 1 4).1 :=
  hp_clamping_amended.1 50 1 4 (by norm_num)

/-! ## C4: summon thresholds -/

theorem summonStep_fst (m h : ℤ) (l : List (ℚ × Bool)) :
    (summonStep m h l).1 =
      l.map (fun q => (q.1, q.2 || decide ((h : ℚ) ≤ (m : ℚ) * q.1))) := by
  induction l with
  | nil => rfl
  | cons a rest ih =>
    obtain ⟨frac, done⟩ := a
    cases done with
    | true => simp [summonStep, ih]
    | false =>
      by_cases hc : ((h : ℚ) ≤ (m : ℚ) * frac)
      · simp [summonStep, ih, hc]
      · simp [summonStep, ih, hc]

theorem summonStep_snd (m h : ℤ) (l : List (ℚ × Bool)) :
    (summonStep m h l).2 =
      3 * l.countP (fun q => !q.2 && decide ((h : ℚ) ≤ (m : ℚ) * q.1)) := by
  induction l with
  | nil => rfl
  | cons a rest ih =>
    obtain ⟨frac, done⟩ := a
    by_cases hc : (!done && decide ((h : ℚ) ≤ (m : ℚ) * frac)) = true
    · simp [summonStep, hc, ih, List.countP_cons]
      ring
    · simp [summonStep, hc, ih, List.countP_cons]

/-- The demon-queen threshold set `{0.8: False, 0.6: False, 0.4: False,
0.2: False}` (main.py line 1093). -/
def queenThresholds : List (ℚ × Bool) :=
  [(4/5, false), (3/5, false), (2/5, false), (1/5, false)]

/-- C4: a summon-threshold pass spawns 3 minions per unfired threshold at
or above the current hp fraction and marks exactly those fired; fired
flags are permanent, a pass is idempotent (re-evaluating the same state
spawns nothing), and dropping from 100% to 10% of 100 max hp fires all
four queen thresholds in one pass (12 minions) while a second pass on the
result spawns none. -/
theorem summon_thresholds_fire_exactly_once :
    (∀ (m h : ℤ) (l : List (ℚ × Bool)),
      (summonStep m h l).2 =
        3 * l.countP (fun q => !q.2 && decide ((h : ℚ) ≤ (m : ℚ) * q.1)) ∧
      (summonStep m h l).1 =
        l.map (fun q => (q.1, q.2 || decide ((h : ℚ) ≤ (m : ℚ) * q.1)))) ∧
    (∀ (m h : ℤ) (frac : ℚ) (l : List (ℚ × Bool)),
      (frac, true) ∈ l → (frac, true) ∈ (summonStep m h l).1) ∧
    (∀ (m h : ℤ) (l : List (ℚ × Bool)),
      summonStep m h (summonStep m h l).1 = ((summonStep m h l).1, 0)) ∧
    summonStep 100 10 queenThresholds =
      ([(4/5, true), (3/5, true), (2/5, true), (1/5, true)], 12) ∧
    summonStep 100 10 (summonStep 100 10 queenThresholds).1 =
      ((summonStep 100 10 queenThresholds).1, 0) := by
  have hfired : ∀ (m h : ℤ) (frac : ℚ) (l : List (ℚ × Bool)),
      (frac, true) ∈ l → (frac, true) ∈ (summonStep m h l).1 := by
    intro m h frac l hm
    rw [summonStep_fst]
    exact List.mem_map.mpr ⟨(frac, true), hm, by simp⟩
  have hidem : ∀ (m h : ℤ) (l : List (ℚ × Bool)),
      summonStep m h (summonStep m h l).1 = ((summonStep m h l).1, 0) := by
    intro m h l
    have h2 : (summonStep m h (summonStep m h l).1).2 = 0 := by
      rw [summonStep_snd, summonStep_fst, List.countP_map]
      have hz : List.countP
          ((fun q => !q.2 && decide ((h : ℚ) ≤ (m : ℚ) * q.1)) ∘
            (fun q => (q.1, q.2 || decide ((h : ℚ) ≤ (m : ℚ) * q.1)))) l = 0 := by
        apply List.countP_eq_zero.mpr
        intro q _
        by_cases hc : ((h : ℚ) ≤ (m : ℚ) * q.1) <;> simp [Function.comp, hc]
      rw [hz, Nat.mul_zero]
    have h1 : (summonStep m h (summonStep m h l).1).1 = (summonStep m h l).1 := by
      rw [summonStep_fst, summonStep_fst, List.map_map]
      apply List.map_congr_left
      intro q _
      by_cases hc : ((h : ℚ) ≤ (m : ℚ) * q.1) <;> simp [hc]
    exact Prod.ext h1 h2
  have hconc : summonStep 100 10 queenThresholds =
      ([(4/5, true), (3/5, true), (2/5, true), (1/5, true)], 12) := by
    norm_num [queenThresholds, summonStep]
  exact ⟨fun m h l => ⟨summonStep_snd m h l, summonStep_fst m h l⟩,
    hfired, hidem, hconc, hidem 100 10 queenThresholds⟩

/-- C4 witness: a fired threshold entry stays fired through another pass
(instantiating the permanence conjunct at a concrete fired entry). -/
theorem summon_thresholds_fire_exactly_once_witness :
    ((4/5 : ℚ), true) ∈ (summonStep 100 10 [((4/5 : ℚ), true)]).1 :=
  summon_thresholds_fire_exactly_once.2.1 100 10 (4/5) [((4/5 : ℚ), true)]
    (List.mem_singleton.mpr rfl)

/-! ## Death handling: helper lemmas -/

theorem deathResolve_removed (e : Enemy) (hdead : e.hp ≤ 0)
    (hrev : e.name ≠ demonKingName ∨ e.revived_once = true)
    (hgate : e.name ≠ secretBossName ∨ e.must_die_by_sword = false ∨
      e.last_hit_by_sword = true) :
    deathResolve e = none := by
  have h1 : ¬((e.name = demonKingName && !e.revived_once) = true) := by
    rcases hrev with h | h <;> simp [h]
  have h2 : ¬((e.name = secretBossName && e.must_die_by_sword &&
      !e.last_hit_by_sword) = true) := by
    rcases hgate with h | h | h <;> simp [h]
  simp only [deathResolve, if_neg (not_lt.mpr hdead), if_neg h1, if_neg h2]

theorem deathResolve_some_pos {a e1 : Enemy} (h : deathResolve a = some e1)
    (hm : 2 ≤ e1.max_hp) : 0 < e1.hp := by
  unfold deathResolve at h
  split_ifs at h with h1 h2 h3
  · obtain rfl := Option.some.inj h
    exact h1
  · obtain rfl := Option.some.inj h
    have hm2 : 2 ≤ a.max_hp := hm
    have hq : (1 : ℚ) ≤ (a.max_hp : ℚ) * (3/4) := by
      have : (2 : ℚ) ≤ (a.max_hp : ℚ) := by exact_mod_cast hm2
      linarith
    have hpos : (reviveTransform a).hp = ⌊(a.max_hp : ℚ) * (3/4)⌋ :=
      pyInt_eq_floor _ (le_trans zero_le_one hq)
    have hfl : (1 : ℤ) ≤ ⌊(a.max_hp : ℚ) * (3/4)⌋ :=
      Int.le_floor.mpr (by exact_mod_cast hq)
    rw [hpos]
    omega
  · obtain rfl := Option.some.inj h
    norm_num

theorem commit_cons_some {e e1 : Enemy} (h : deathResolve e = some e1)
    (rest : List Enemy) :
    commitEnemies (e :: rest) =
      (e1 :: (commitEnemies rest).1, (commitEnemies rest).2) := by
  simp [commitEnemies, h]

theorem commit_cons_none {e : Enemy} (h : deathResolve e = none)
    (rest : List Enemy) :
    commitEnemies (e :: rest) =
      ((commitEnemies rest).1, e :: (commitEnemies rest).2) := by
  simp [commitEnemies, h]

theorem commit_deaths_count (e : Enemy) (hnone : deathResolve e = none) :
    ∀ es : List Enemy, (commitEnemies es).2.count e = es.count e := by
  intro es
  induction es with
  | nil => rfl
  | cons a rest ih =>
    rcases hd : deathResolve a with _ | a1
    · rw [commit_cons_none hd]
      simp [List.count_cons, ih]
    · rw [commit_cons_some hd]
      by_cases hae : a = e
      · subst hae
        rw [hnone] at hd
        cases hd
      · simp [List.count_cons, ih, hae]

theorem mem_commit_survivors {es : List Enemy} {e1 : Enemy}
    (h : e1 ∈ (commitEnemies es).1) :
    ∃ a ∈ es, deathResolve a = some e1 := by
  induction es with
  | nil => cases h
  | cons a rest ih =>
    rcases hd : deathResolve a with _ | a1
    · rw [commit_cons_none hd] at h
      obtain ⟨b, hb, hb2⟩ := ih h
      exact ⟨b, List.mem_cons_of_mem _ hb, hb2⟩
    · rw [commit_cons_some hd] at h
      rcases List.mem_cons.mp h with h1 | h1
      · exact ⟨a, List.mem_cons_self _ _, by rw [hd, h1]⟩
      · obtain ⟨b, hb, hb2⟩ := ih h1
        exact ⟨b, List.mem_cons_of_mem _ hb, hb2⟩

/-! ## C5: deaths are committed exactly once -/

/-- C5: an enemy whose hp is at most 0 at the survivors commit, with
neither exception flag applicable (not an unrevived demon king, not a
sword-gated secret boss hit last by something other than the sword), is
absent from the committed living list; its death record (the reward drop)
is produced exactly once per occurrence, and a second commit over the
survivors produces no further death record for it. -/
theorem enemy_death_processed_once (e : Enemy) (es : List Enemy)
    (hdead : e.hp ≤ 0) (hmax : 2 ≤ e.max_hp)
    (hrev : e.name ≠ demonKingName ∨ e.revived_once = true)
    (hgate : e.name ≠ secretBossName ∨ e.must_die_by_sword = false ∨
      e.last_hit_by_sword = true) :
    e ∉ (commitEnemies es).1 ∧
    (commitEnemies es).2.count e = es.count e ∧
    (commitEnemies (commitEnemies es).1).2.count e = 0 := by
  have hnone := deathResolve_removed e hdead hrev hgate
  have hmem : e ∉ (commitEnemies es).1 := by
    intro hmem
    obtain ⟨a, _, ha⟩ := mem_commit_survivors hmem
    have := deathResolve_some_pos ha hmax
    omega
  refine ⟨hmem, commit_deaths_count e hnone es, ?_⟩
  rw [commit_deaths_count e hnone, List.count_eq_zero.mpr hmem]

/-- An imp already at 0 hp, entering the survivors commit. -/
def deadImp : Enemy := { sampleEnemy with hp := 0 }

/-- C5 witness: the dead imp is removed from a concrete two-enemy list,
its death is recorded once, and recommitting the survivors records no
further death for it. -/
theorem enemy_death_processed_once_witness :
    deadImp ∉ (commitEnemies [deadImp, sampleEnemy]).1 ∧
    (commitEnemies [deadImp, sampleEnemy]).2.count deadImp =
      [deadImp, sampleEnemy].count deadImp ∧
    (commitEnemies (commitEnemies [deadImp, sampleEnemy]).1).2.count deadImp = 0 :=
  enemy_death_processed_once deadImp [deadImp, sampleEnemy]
    (by norm_num [deadImp, sampleEnemy])
    (by norm_num [deadImp, sampleEnemy])
    (Or.inl (by simp [deadImp, sampleEnemy, demonKingName]))
    (Or.inl (by simp [deadImp, sampleEnemy, secretBossName]))

/-! ## C6: revive-once boss -/

/-- C6: when the demon king's hp reaches 0 with the revive unused, the
death handler keeps it alive transformed to hp `⌊0.75 * max_hp⌋`, damage
`int(damage * 1.2)`, speed raised by the fixed increment 0.3, with the
revive marked used; when its hp reaches 0 again after the revive it is
removed from the living list permanently. -/
theorem revive_once_boss (e : Enemy) (hname : e.name = demonKingName)
    (hdead : e.hp ≤ 0) :
    (e.revived_once = false →
      deathResolve e = some (reviveTransform e) ∧
      (0 ≤ e.max_hp → (reviveTransform e).hp = ⌊(e.max_hp : ℚ) * (3/4)⌋) ∧
      (0 ≤ e.damage → (reviveTransform e).damage = ⌊(e.damage : ℚ) * (6/5)⌋) ∧
      (reviveTransform e).speed = e.speed + 3/10 ∧
      (reviveTransform e).revived_once = true ∧
      ∀ rest, commitEnemies (e :: rest) =
        (reviveTransform e :: (commitEnemies rest).1, (commitEnemies rest).2)) ∧
    (e.revived_once = true →
      deathResolve e = none ∧
      ∀ rest, commitEnemies (e :: rest) =
        ((commitEnemies rest).1, e :: (commitEnemies rest).2)) := by
  constructor
  · intro hrev
    have hsome : deathResolve e = some (reviveTransform e) := by
      simp only [deathResolve, if_neg (not_lt.mpr hdead)]
      rw [if_pos (by simp [hname, hrev])]
    refine ⟨hsome, ?_, ?_, rfl, rfl, fun rest => commit_cons_some hsome rest⟩
    · intro hm
      exact pyInt_eq_floor _
        (mul_nonneg (by exact_mod_cast hm) (by norm_num))
    · intro hd
      exact pyInt_eq_floor _
        (mul_nonneg (by exact_mod_cast hd) (by norm_num))
  · intro hrev
    have hnone : deathResolve e = none :=
      deathResolve_removed e hdead (Or.inr hrev)
        (Or.inl (by rw [hname]; simp [demonKingName, secretBossName]))
    exact ⟨hnone, fun rest => commit_cons_none hnone rest⟩

/-- The demon king at 0 hp with the revive not yet used. -/
def downedKing : Enemy :=
  { x := 0, y := 0, w := 40, h := 40, hp := 0, max_hp := 800,
    invuln_timer := 0, name := demonKingName, speed := 2, damage := 20 }

/-- C6 witness: the downed demon king's first death is intercepted by the
revive transform; its hp, damage, speed and flag follow the formulas. -/
theorem revive_once_boss_witness :
    ((downedKing.revived_once = false →
      deathResolve downedKing = some (reviveTransform downedKing) ∧
      (0 ≤ downedKing.max_hp →
        (reviveTransform downedKing).hp = ⌊(downedKing.max_hp : ℚ) * (3/4)⌋) ∧
      (0 ≤ downedKing.damage →
        (reviveTransform downedKing).damage = ⌊(downedKing.damage : ℚ) * (6/5)⌋) ∧
      (reviveTransform downedKing).speed = downedKing.speed + 3/10 ∧
      (reviveTransform downedKing).revived_once = true ∧
      ∀ rest, commitEnemies (downedKing :: rest) =
        (reviveTransform downedKing :: (commitEnemies rest).1,
          (commitEnemies rest).2)) ∧
    (downedKing.revived_once = true →
      deathResolve downedKing = none ∧
      ∀ rest, commitEnemies (downedKing :: rest) =
        ((commitEnemies rest).1, downedKing :: (commitEnemies rest).2))) :=
  revive_once_boss downedKing rfl (by norm_num [downedKing])

/-! ## C3: sword-only kill gate -/

/-- C3: for the sword-gated secret boss, a death with the
last-hit-was-melee flag false is cancelled and hp is set to 1, keeping
her in the living list; projectile hits keep the flag false, while a
melee hit sets it true, after which a death is no longer intercepted and
she is removed. -/
theorem sword_gate_requires_melee (e : Enemy)
    (hname : e.name = secretBossName) (hflag : e.must_die_by_sword = true) :
    (e.hp ≤ 0 → e.last_hit_by_sword = false →
      deathResolve e = some { e with hp := 1 } ∧
      ∀ rest, commitEnemies (e :: rest) =
        ({ e with hp := 1 } :: (commitEnemies rest).1, (commitEnemies rest).2)) ∧
    (∀ pr : Projectile, e.last_hit_by_sword = false →
      (projHitEnemy pr e).last_hit_by_sword = false) ∧
    (∀ (p : Player) (wpn : Weapon), 0 < e.hp →
      inMeleeRange p.centerX p.centerY e.centerX e.centerY
        (BASE_SWORD_RANGE + wpn.range) = true →
      (swordHitEnemy p wpn e).last_hit_by_sword = true ∧
      ((swordHitEnemy p wpn e).hp ≤ 0 →
        deathResolve (swordHitEnemy p wpn e) = none)) := by
  refine ⟨?_, ?_, ?_⟩
  · intro hdead hlast
    have hsome : deathResolve e = some { e with hp := 1 } := by
      have hne : ¬((e.name = demonKingName && !e.revived_once) = true) := by
        simp [hname, demonKingName, secretBossName]
      simp only [deathResolve, if_neg (not_lt.mpr hdead), if_neg hne]
      rw [if_pos (by simp [hname, hflag, hlast])]
    exact ⟨hsome, fun rest => commit_cons_some hsome rest⟩
  · intro pr hlast
    unfold projHitEnemy
    split_ifs <;> simp [hlast]
  · intro p wpn hhp hin
    have he1 : swordHitEnemy p wpn e =
        { e with hp := e.hp - meleeDamage p.atk wpn,
                 invuln_timer := INVULN_TIME,
                 last_hit_by_sword := true } := by
      simp only [swordHitEnemy, if_neg (not_le.mpr hhp), hin, if_true]
    refine ⟨by rw [he1], fun hdead => ?_⟩
    apply deathResolve_removed _ hdead
    · left
      rw [he1]
      simp [hname, demonKingName, secretBossName]
    · right; right
      rw [he1]

/-- The sword-gated demon queen at 0 hp whose last hit was ranged. -/
def gatedQueen : Enemy :=
  { x := 0, y := 0, w := 40, h := 40, hp := 0, max_hp := 600,
    invuln_timer := 0, name := secretBossName, speed := 11/5, damage := 28,
    must_die_by_sword := true }

/-- C3 witness: the gate instantiated at the downed demon queen. -/
theorem sword_gate_requires_melee_witness :
    ((gatedQueen.hp ≤ 0 → gatedQueen.last_hit_by_sword = false →
      deathResolve gatedQueen = some { gatedQueen with hp := 1 } ∧
      ∀ rest, commitEnemies (gatedQueen :: rest) =
        ({ gatedQueen with hp := 1 } :: (commitEnemies rest).1,
          (commitEnemies rest).2)) ∧
    (∀ pr : Projectile, gatedQueen.last_hit_by_sword = false →
      (projHitEnemy pr gatedQueen).last_hit_by_sword = false) ∧
    (∀ (p : Player) (wpn : Weapon), 0 < gatedQueen.hp →
      inMeleeRange p.centerX p.centerY gatedQueen.centerX gatedQueen.centerY
        (BASE_SWORD_RANGE + wpn.range) = true →
      (swordHitEnemy p wpn gatedQueen).last_hit_by_sword = true ∧
      ((swordHitEnemy p wpn gatedQueen).hp ≤ 0 →
        deathResolve (swordHitEnemy p wpn gatedQueen) = none))) :=
  sword_gate_requires_melee gatedQueen rfl rfl

/-! ## C7: contact damage and armor absorption -/

/-- C7: a contact hit by a living enemy on a non-invulnerable overlapping
player is absorbed by an armor charge when one remains (hp unchanged,
charges down by exactly 1), and otherwise costs the enemy's full contact
damage; the invulnerability window is set afterward on both paths. -/
theorem contact_armor_absorption (e : Enemy) (p : Player)
    (hhp : 0 < e.hp) (hinv : p.invuln_timer ≤ 0)
    (hcol : e.rect.collide p.rect = true) :
    (0 < p.armor_hits_remaining →
      (entity_hit_player e p).hp = p.hp ∧
      (entity_hit_player e p).armor_hits_remaining = p.armor_hits_remaining - 1) ∧
    (p.armor_hits_remaining ≤ 0 →
      (entity_hit_player e p).hp = p.hp - e.damage ∧
      (entity_hit_player e p).armor_hits_remaining = p.armor_hits_remaining) ∧
    (entity_hit_player e p).invuln_timer = INVULN_TIME := by
  refine ⟨fun harm => ?_, fun harm => ?_, ?_⟩
  · simp only [entity_hit_player, if_neg (not_le.mpr hhp),
      if_neg (not_lt.mpr hinv), hcol, if_true, if_pos harm]
    split_ifs <;> simp [applyBleed, applyNoHeal]
  · simp only [entity_hit_player, if_neg (not_le.mpr hhp),
      if_neg (not_lt.mpr hinv), hcol, if_true, if_neg (not_lt.mpr harm)]
    split_ifs <;> simp [applyBleed, applyNoHeal]
  · simp only [entity_hit_player, if_neg (not_le.mpr hhp),
      if_neg (not_lt.mpr hinv), hcol, if_true]
    split_ifs <;> simp [applyBleed, applyNoHeal]

/-- `samplePlayer` carrying 2 armor charges. -/
def armoredPlayer : Player := { samplePlayer with armor_hits_remaining := 2 }

/-- C7 witness: with 2 charges a concrete overlapping contact hit leaves
hp unchanged, drops charges to 1 and sets the invulnerability window. -/
theorem contact_armor_absorption_witness :
    ((0 < armoredPlayer.armor_hits_remaining →
      (entity_hit_player sampleEnemy armoredPlayer).hp = armoredPlayer.hp ∧
      (entity_hit_player sampleEnemy armoredPlayer).armor_hits_remaining =
        armoredPlayer.armor_hits_remaining - 1) ∧
    (armoredPlayer.armor_hits_remaining ≤ 0 →
      (entity_hit_player sampleEnemy armoredPlayer).hp =
        armoredPlayer.hp - sampleEnemy.damage ∧
      (entity_hit_player sampleEnemy armoredPlayer).armor_hits_remaining =
        armoredPlayer.armor_hits_remaining) ∧
    (entity_hit_player sampleEnemy armoredPlayer).invuln_timer = INVULN_TIME) :=
  contact_armor_absorption sampleEnemy armoredPlayer
    (by norm_num [sampleEnemy])
    (by norm_num [armoredPlayer, samplePlayer])
    (by norm_num [Enemy.rect, Player.rect, Rect.collide, pyInt,
      sampleEnemy, armoredPlayer, samplePlayer])

/-! ## C8: status effects merge by max, not additively -/

/-- C8: reapplying bleed or suppress-heal raises the player's stored
duration and magnitude only to the max of current and incoming values
(`applyBleed` / `applyNoHeal`, the merges performed by
`entity_hit_player` and `projHitPlayer`); from a fresh state, applying
bleed (d1, t1) then (d2, t2) leaves exactly (max d1 d2, max t1 t2), e.g.
(4, 10) then (2, 6) leaves (4, 10). -/
theorem effect_max_merge (p : Player) (d1 t1 d2 t2 : ℚ)
    (hdps : p.bleed_dps = 0) (htime : p.bleed_time_left = 0)
    (hnh : p.no_heal_time_left = 0) (hd1 : 0 ≤ d1) (ht1 : 0 ≤ t1) :
    (∀ (q : Player) (v t : ℚ),
      (applyBleed q v t).bleed_dps = max q.bleed_dps v ∧
      (applyBleed q v t).bleed_time_left = max q.bleed_time_left t ∧
      (applyNoHeal q t).no_heal_time_left = max q.no_heal_time_left t) ∧
    (applyBleed (applyBleed p d1 t1) d2 t2).bleed_dps = max d1 d2 ∧
    (applyBleed (applyBleed p d1 t1) d2 t2).bleed_time_left = max t1 t2 ∧
    (applyNoHeal (applyNoHeal p t1) t2).no_heal_time_left = max t1 t2 ∧
    ((applyBleed (applyBleed p 4 10) 2 6).bleed_dps = 4 ∧
     (applyBleed (applyBleed p 4 10) 2 6).bleed_time_left = 10) := by
  have m1 : max (0 : ℚ) d1 = d1 := max_eq_right hd1
  have m2 : max (0 : ℚ) t1 = t1 := max_eq_right ht1
  refine ⟨fun q v t => ⟨rfl, rfl, rfl⟩, ?_, ?_, ?_, ?_, ?_⟩
  · simp only [applyBleed]
    rw [hdps, m1]
  · simp only [applyBleed]
    rw [htime, m2]
  · simp only [applyNoHeal]
    rw [hnh, m2]
  · simp only [applyBleed]
    rw [hdps]
    norm_num [max_def]
  · simp only [applyBleed]
    rw [htime]
    norm_num [max_def]

/-- C8 witness: the max-merge instantiated at `samplePlayer` (fresh
effect state) with bleed (4, 10) then (2, 6). -/
theorem effect_max_merge_witness :
    ((∀ (q : Player) (v t : ℚ),
      (applyBleed q v t).bleed_dps = max q.bleed_dps v ∧
      (applyBleed q v t).bleed_time_left = max q.bleed_time_left t ∧
      (applyNoHeal q t).no_heal_time_left = max q.no_heal_time_left t) ∧
    (applyBleed (applyBleed samplePlayer 4 10) 2 6).bleed_dps = max 4 2 ∧
    (applyBleed (applyBleed samplePlayer 4 10) 2 6).bleed_time_left = max 10 6 ∧
    (applyNoHeal (applyNoHeal samplePlayer 10) 6).no_heal_time_left = max 10 6 ∧
    ((applyBleed (applyBleed samplePlayer 4 10) 2 6).bleed_dps = 4 ∧
     (applyBleed (applyBleed samplePlayer 4 10) 2 6).bleed_time_left = 10)) :=
  effect_max_merge samplePlayer 4 10 2 6 rfl rfl rfl
    (by norm_num) (by norm_num)

/-! ## C9: collision resolution resolves X before Y -/

/-- C9: the obstacle-overlap resolver is a fixed deterministic tie-break:
a clear full move is accepted; otherwise the horizontal-only retry is
accepted whenever it is clear (regardless of the vertical-only option);
otherwise the vertical-only retry; otherwise the move fully reverts to
the previous position. -/
theorem collision_resolution_x_before_y (obstacles : List Rect)
    (x y vx vy prevX prevY : ℚ) (w h : ℤ) :
    (collides_rect ⟨pyInt x, pyInt y, w, h⟩ obstacles = false →
      resolve_entity_collision obstacles x y vx vy prevX prevY w h = (x, y)) ∧
    (collides_rect ⟨pyInt x, pyInt y, w, h⟩ obstacles = true →
      collides_rect ⟨pyInt (prevX + vx), pyInt prevY, w, h⟩ obstacles = false →
      resolve_entity_collision obstacles x y vx vy prevX prevY w h =
        (prevX + vx, prevY)) ∧
    (collides_rect ⟨pyInt x, pyInt y, w, h⟩ obstacles = true →
      collides_rect ⟨pyInt (prevX + vx), pyInt prevY, w, h⟩ obstacles = true →
      collides_rect ⟨pyInt prevX, pyInt (prevY + vy), w, h⟩ obstacles = false →
      resolve_entity_collision obstacles x y vx vy prevX prevY w h =
        (prevX, prevY + vy)) ∧
    (collides_rect ⟨pyInt x, pyInt y, w, h⟩ obstacles = true →
      collides_rect ⟨pyInt (prevX + vx), pyInt prevY, w, h⟩ obstacles = true →
      collides_rect ⟨pyInt prevX, pyInt (prevY + vy), w, h⟩ obstacles = true →
      resolve_entity_collision obstacles x y vx vy prevX prevY w h =
        (prevX, prevY)) := by
  refine ⟨?_, ?_, ?_, ?_⟩
  · intro h1
    simp [resolve_entity_collision, h1]
  · intro h1 h2
    simp [resolve_entity_collision, h1, h2]
  · intro h1 h2 h3
    simp [resolve_entity_collision, h1, h2, h3]
  · intro h1 h2 h3
    simp [resolve_entity_collision, h1, h2, h3]

/-- A wall lying below the start position, blocking the diagonal target
and the vertical-only retry but not the horizontal-only retry. -/
def wallRect : Rect := ⟨0, 12, 30, 10⟩

/-- C9 witness: a concrete diagonal move (velocity (8,8) from the origin,
10×10 entity) into the wall resolves to the horizontal-only component. -/
theorem collision_resolution_x_before_y_witness :
    resolve_entity_collision [wallRect] 8 8 8 8 0 0 10 10 = (8, 0) := by
  have h := (collision_resolution_x_before_y [wallRect] 8 8 8 8 0 0 10 10).2.1
    (by norm_num [collides_rect, Rect.collide, pyInt, wallRect])
    (by norm_num [collides_rect, Rect.collide, pyInt, wallRect])
  simpa using h

end SwordMagic
